import Mathlib

/-!
# lcd-mp3: playlist, transport state machine and metadata resolution

A shallow embedding of `lcd-mp3.c` / `lcd-mp3.h`:

* the index-ordered linked list (`playlist_init`, `playlist_add_song`,
  `playlist_get_song`);
* the transport operations on `cur_song` (`nextSong`, `prevSong`, `quitMe`,
  `pauseMe`, `playMe`, `checkPause`), the decode/output loop of `play_song`
  and the session loop of `main`, as a step function on an explicit state
  shared by the controller thread and the worker thread;
* `make_id` and `id3_tagger` on C strings.
-/

namespace LcdMp3

/-! ## Playlist (lcd-mp3.c, lines 75-130) -/

/-- One `playlist_node_t`: `index` and `songptr`; `nextptr` is the tail of the
list.  A `void *` that may be `NULL` is an `Option`. -/
structure playlist_node_t (α : Type) where
  index : Int
  songptr : Option α
deriving DecidableEq, Repr

/-- The type `playlist_t`: a pointer to the first node, `NULL` for the empty list. -/
abbrev playlist_t (α : Type) := List (playlist_node_t α)

/-- The function `playlist_init`: `*playlistptr = NULL`. -/
def playlist_init {α : Type} : playlist_t α := []

/-- The function `playlist_add_song`.  The `for` loop walks the list; a node
with the same index has its `songptr` overwritten (the old one is passed to
`free`), the walk stops at the first node with a larger index, and when no
node was overwritten a new node is linked in front of the node the walk
stopped at (at the head when that node is the first one, at the end when the
walk ran off the list). -/
def playlist_add_song {α : Type} (index : Int) (songptr : Option α) :
    playlist_t α → playlist_t α
  | [] => [⟨index, songptr⟩]
  | cur :: rest =>
    if cur.index = index then ⟨cur.index, songptr⟩ :: rest
    else if cur.index > index then ⟨index, songptr⟩ :: cur :: rest
    else cur :: playlist_add_song index songptr rest

/-- The function `playlist_get_song`: `*songptr` starts as `NULL`; the walk
stops at the node with the index (taking its `songptr`) or at the first node
with a larger index. -/
def playlist_get_song {α : Type} (index : Int) : playlist_t α → Option α
  | [] => none
  | cur :: rest =>
    if cur.index = index then cur.songptr
    else if cur.index > index then none
    else playlist_get_song index rest

/-- A sequence of `playlist_add_song (index, track)` calls, first call first. -/
def add_all {α : Type} (calls : List (Int × Option α)) (pl : playlist_t α) : playlist_t α :=
  calls.foldl (fun acc c => playlist_add_song c.1 c.2 acc) pl

/-- The population loop of `main` (lines 459-466): `argv[index]` is copied and
added at `index`, for `index` counting up from its start value. -/
def populate : Int → List String → playlist_t String → playlist_t String
  | _, [], pl => pl
  | index, arg :: rest, pl => populate (index + 1) rest (playlist_add_song index (some arg) pl)

/-! ## Transport state (lcd-mp3.h, `status_enum`, `struct song_info`) -/

/-- The enumeration `status_enum` of lcd-mp3.h. -/
inductive status_enum
  | PLAY | PAUSE | NEXT | PREV | STOP | QUIT
deriving DecidableEq, Repr

/-- Program points of the worker thread running `play_song`. -/
inductive WorkerPc
  /-- no thread exists: before `pthread_create`, after `pthread_join` -/
  | absent
  /-- line 417, about to call `mpg123_read` -/
  | read
  /-- line 419, in `checkPause` at the test `play_status == PAUSE` (line 177) -/
  | checkPause
  /-- line 178, parked in `pthread_cond_wait` on `m_resumeCond` -/
  | waiting
  /-- line 420, about to call `ao_play` -/
  | play
  /-- line 422, the test for QUIT, NEXT, PREV -/
  | check
  /-- lines 432-435, after the loop: `song_over = TRUE` and the test of line 435 -/
  | report
  /-- line 436, the test of line 435 was true: about to store PLAY -/
  | setPlay
  /-- the thread function has returned and waits to be joined -/
  | done
deriving DecidableEq, Repr

/-- Program points of the controller thread in the session loop of `main`. -/
inductive CtlPc
  /-- line 488, the test of the outer `while` -/
  | loopHead
  /-- line 507, the test of the inner `while` -/
  | innerTest
  /-- line 514, play button -/
  | pollPlay
  /-- line 526, previous button -/
  | pollPrev
  /-- line 538, next button -/
  | pollNext
  /-- line 550, info button -/
  | pollInfo
  /-- line 565, quit button -/
  | pollQuit
  /-- line 574, in `pthread_join` -/
  | join
  /-- line 579, the status and index update after the track -/
  | post
  /-- line 602, the session loop has ended -/
  | exited
deriving DecidableEq, Repr

/-- What the session is given: `argc`, the playlist built from `argv`, and for
every file the chunks `mpg123_read` delivers with `MPG123_OK` before its first
other return value. -/
structure Config where
  argc : Int
  playlist : playlist_t String
  stream : String → List Nat

/-- The state shared by the two threads (`cur_song.play_status`,
`cur_song.song_over`, `cur_status.song_over`), the local `song_index` of
`main`, the program point of each thread, the decoder (chunks not yet
delivered), the worker's `buffer` and the audio sink (chunks written by
`ao_play`, oldest first).  `started` records `song_index` and the file name at
every `pthread_create`, oldest first.  The texts of `cur_song` and the display
are not part of this state; `song_index` is an `Int` because it stays within
`1..argc` (`IndexInv`), so the C arithmetic on it never overflows. -/
structure State where
  play_status : status_enum
  song_over : Bool
  song_index : Int
  ctl : CtlPc
  worker : WorkerPc
  decoder : List Nat
  buffer : Nat
  sink : List Nat
  started : List (Int × String)
  cur_status_song_over : Bool
deriving DecidableEq, Repr

/-- The function `nextSong` (lines 134-140). -/
def nextSong (s : State) : State :=
  { s with play_status := status_enum.NEXT, song_over := true }

/-- The function `prevSong` (lines 142-148). -/
def prevSong (s : State) : State :=
  { s with play_status := status_enum.PREV, song_over := true }

/-- The function `quitMe` (lines 150-156). -/
def quitMe (s : State) : State :=
  { s with play_status := status_enum.QUIT, song_over := true }

/-- The function `pauseMe` (lines 158-163). -/
def pauseMe (s : State) : State :=
  { s with play_status := status_enum.PAUSE }

/-- The function `playMe` (lines 166-172): stores PLAY and broadcasts on
`m_resumeCond`; a worker parked in `pthread_cond_wait` returns from the wait
and tests the `while` condition of `checkPause` again. -/
def playMe (s : State) : State :=
  { s with play_status := status_enum.PLAY,
           worker := if s.worker = WorkerPc.waiting then WorkerPc.checkPause else s.worker }

/-- The test of lines 422 and 435: `play_status` is QUIT, NEXT or PREV. -/
def skip_or_quit (st : status_enum) : Bool :=
  st = status_enum.QUIT || st = status_enum.NEXT || st = status_enum.PREV

/-- One step of the worker thread (`play_song`, lines 417-438, with
`checkPause`, lines 174-180).  A worker that is absent, parked in
`pthread_cond_wait` or finished does not move.  The report after the loop runs
under `writeMutex`, which no controller operation takes, so the test of line
435 and the store of line 436 are two steps. -/
def worker_step (s : State) : State :=
  match s.worker with
  | WorkerPc.absent => s
  | WorkerPc.read =>
    match s.decoder with
    | [] => { s with worker := WorkerPc.report }
    | c :: rest => { s with buffer := c, decoder := rest, worker := WorkerPc.checkPause }
  | WorkerPc.checkPause =>
    if s.play_status = status_enum.PAUSE then { s with worker := WorkerPc.waiting }
    else { s with worker := WorkerPc.play }
  | WorkerPc.waiting => s
  | WorkerPc.play => { s with sink := s.sink ++ [s.buffer], worker := WorkerPc.check }
  | WorkerPc.check =>
    if skip_or_quit s.play_status then { s with worker := WorkerPc.report }
    else { s with worker := WorkerPc.read }
  | WorkerPc.report =>
    if skip_or_quit s.play_status then
      { s with song_over := true, cur_status_song_over := true, worker := WorkerPc.done }
    else { s with song_over := true, worker := WorkerPc.setPlay }
  | WorkerPc.setPlay =>
    { s with play_status := status_enum.PLAY, cur_status_song_over := true,
             worker := WorkerPc.done }
  | WorkerPc.done => s

/-- One step of the controller thread (the session loop of `main`, lines
488-601).  At the loop test a found track is loaded and its worker created
(lines 490-505); a miss goes to line 579.  At a button, `pressed` says that
both `digitalRead` calls returned 0; every handler (`playMe`, `pauseMe`,
`prevSong`, `nextSong`, `quitMe`, each under `pauseMutex`) is one step.  The
info button changes display text only.  In `pthread_join` the controller moves
only when the worker has returned; after the loop it does not move. -/
def controller_step (cfg : Config) (pressed : Bool) (s : State) : State :=
  match s.ctl with
  | CtlPc.loopHead =>
    if s.play_status ≠ status_enum.QUIT ∧ s.song_index < cfg.argc then
      match playlist_get_song s.song_index cfg.playlist with
      | some string =>
        { s with decoder := cfg.stream string, worker := WorkerPc.read,
                 started := s.started ++ [(s.song_index, string)], ctl := CtlPc.innerTest }
      | none => { s with ctl := CtlPc.post }
    else { s with ctl := CtlPc.exited }
  | CtlPc.innerTest =>
    if s.song_over = false then { s with ctl := CtlPc.pollPlay }
    else { s with ctl := CtlPc.join }
  | CtlPc.pollPlay =>
    if pressed then
      if s.play_status = status_enum.PAUSE then { playMe s with ctl := CtlPc.pollPrev }
      else { pauseMe s with ctl := CtlPc.pollPrev }
    else { s with ctl := CtlPc.pollPrev }
  | CtlPc.pollPrev =>
    if pressed ∧ s.song_index - 1 ≠ 0 then
      { prevSong s with song_index := s.song_index - 1, ctl := CtlPc.pollNext }
    else { s with ctl := CtlPc.pollNext }
  | CtlPc.pollNext =>
    if pressed ∧ s.song_index + 1 < cfg.argc then
      { nextSong s with song_index := s.song_index + 1, ctl := CtlPc.pollInfo }
    else { s with ctl := CtlPc.pollInfo }
  | CtlPc.pollInfo => { s with ctl := CtlPc.pollQuit }
  | CtlPc.pollQuit =>
    if pressed then { quitMe s with ctl := CtlPc.innerTest }
    else { s with ctl := CtlPc.innerTest }
  | CtlPc.join =>
    if s.worker = WorkerPc.done then { s with worker := WorkerPc.absent, ctl := CtlPc.post }
    else s
  | CtlPc.post =>
    if s.song_over = true ∧ s.play_status = status_enum.PLAY then
      { s with song_over := false, song_index := s.song_index + 1, ctl := CtlPc.loopHead }
    else if s.song_over = true ∧
        (s.play_status = status_enum.NEXT ∨ s.play_status = status_enum.PREV) then
      { s with play_status := status_enum.PLAY, song_over := false, ctl := CtlPc.loopHead }
    else { s with ctl := CtlPc.loopHead }
  | CtlPc.exited => s

/-- Which thread moves next. -/
inductive Action
  | controller (pressed : Bool)
  | worker
deriving DecidableEq, Repr

/-- One step of the system. -/
def step (cfg : Config) (a : Action) (s : State) : State :=
  match a with
  | Action.controller pressed => controller_step cfg pressed s
  | Action.worker => worker_step s

/-- A schedule, first action first. -/
def exec (cfg : Config) (acts : List Action) (s : State) : State :=
  acts.foldl (fun st a => step cfg a st) s

/-- The state at line 488 on entry: `song_over = FALSE` (line 455),
`song_index = 1` (line 486), `play_status = PLAY` (line 487), no worker. -/
def init : State :=
  { play_status := status_enum.PLAY, song_over := false, song_index := 1,
    ctl := CtlPc.loopHead, worker := WorkerPc.absent, decoder := [], buffer := 0,
    sink := [], started := [], cur_status_song_over := false }

/-- The session `main` sets up for the arguments `argv[1..]`. -/
def main_config (args : List String) (stream : String → List Nat) : Config :=
  { argc := (args.length : Int) + 1, playlist := populate 1 args playlist_init,
    stream := stream }

/-! ## Metadata (lcd-mp3.c, `make_id`, `id3_tagger`, lines 186-286) -/

/-- The zero byte that ends a C string. -/
def NUL : Char := Char.ofNat 0

/-- Line feed. -/
def LF : Char := Char.ofNat 10

/-- Carriage return. -/
def CR : Char := Char.ofNat 13

/-- The constant `MAXDATALEN` of lcd-mp3.h. -/
def MAXDATALEN : Nat := 256

/-- The enumeration `song_enum` of lcd-mp3.h. -/
inductive song_enum
  | TITLE | ARTIST | GENRE | ALBUM | BASE_FILENAME | FILENAME
deriving DecidableEq, Repr

/-- The character arrays of `struct song_info`, each as the C string it holds
(the bytes before its first zero byte). -/
structure song_info where
  title : List Char
  artist : List Char
  genre : List Char
  album : List Char
  second_row_text : List Char
  base_filename : List Char
  filename : List Char
  scroll_firstRow : List Char
  scroll_secondRow : List Char
deriving DecidableEq, Repr

/-- The global `cur_song` at program start: all arrays zero. -/
def song_info_zero : song_info :=
  { title := [], artist := [], genre := [], album := [], second_row_text := [],
    base_filename := [], filename := [], scroll_firstRow := [], scroll_secondRow := [] }

/-- The C string that starts at offset `k` of `mem`. -/
def c_string_at (mem : List Char) (k : Nat) : List Char :=
  (mem.drop k).takeWhile (fun c => c ≠ NUL)

/-- The `n` bytes `strncpy (dst, src, n)` stores: `src` cut at `n`, filled up
with zero bytes. -/
def strncpy (n : Nat) (src : List Char) : List Char :=
  (src ++ List.replicate n NUL).take n

/-- The call `strcpy (dst, src)` into an array of `cap` bytes: the string and
its zero byte must fit. -/
def strcpy (cap : Nat) (src : List Char) : Option (List Char) :=
  if src.length < cap then some src else none

/-- The pointer `line` of `make_id`: `NULL`, the literal `""`, or `lines + k`. -/
inductive LinePtr
  | null
  | empty_literal
  | offset (k : Nat)
deriving DecidableEq, Repr

/-- The locals of the loop of `make_id`; `tmp_name` is `none` until the first
`strncpy` into it. -/
structure MakeIdLocals where
  hadcr : Nat
  hadlf : Nat
  line : LinePtr
  tmp_name : Option (List Char)
deriving DecidableEq, Repr

/-- The body of the `for` loop of `make_id` at position `i` holding byte `c`
(lines 205-228). -/
def make_id_body (lines : List Char) (i : Nat) (c : Char) (st : MakeIdLocals) : MakeIdLocals :=
  if c = LF ∨ c = CR ∨ c = NUL then
    let hadlf := if c = LF then st.hadlf + 1 else st.hadlf
    let hadcr := if c = CR then st.hadcr + 1 else st.hadcr
    let line :=
      if (hadcr ≠ 0 ∨ hadlf ≠ 0) ∧ hadlf % 2 = 0 ∧ hadcr % 2 = 0 then LinePtr.empty_literal
      else st.line
    match line with
    | LinePtr.null => { hadcr := hadcr, hadlf := hadlf, line := LinePtr.null, tmp_name := st.tmp_name }
    | LinePtr.empty_literal =>
      { hadcr := hadcr, hadlf := hadlf, line := LinePtr.null, tmp_name := some (strncpy 100 []) }
    | LinePtr.offset k =>
      { hadcr := hadcr, hadlf := hadlf, line := LinePtr.null,
        tmp_name := some (strncpy 100 (c_string_at (lines.set i NUL) k)) }
  else
    { hadcr := 0, hadlf := 0,
      line := if st.line = LinePtr.null then LinePtr.offset i else st.line,
      tmp_name := st.tmp_name }

/-- The `for` loop of `make_id` from position `i` over the bytes still ahead. -/
def make_id_loop (lines : List Char) : Nat → List Char → MakeIdLocals → MakeIdLocals
  | _, [], st => st
  | i, c :: rest, st => make_id_loop lines (i + 1) rest (make_id_body lines i c st)

/-- The string `strcpy` reads out of `tmp_name[100]`: it must have been
written and must hold a zero byte. -/
def read_tmp_name (tmp_name : Option (List Char)) : Option (List Char) :=
  match tmp_name with
  | none => none
  | some buf => if NUL ∈ buf then some (c_string_at buf 0) else none

/-- The function `make_id`.  `inlines` is the `fill` bytes of the
`mpg123_string`, `none` for a `NULL` pointer; a `NULL` pointer or `fill == 0`
returns at once.  The result is `none` where the C code reads `tmp_name`
without a zero byte in it. -/
def make_id (inlines : Option (List Char)) (type : song_enum) (cur : song_info) :
    Option song_info :=
  match inlines with
  | none => some cur
  | some lines =>
    if lines.length = 0 then some cur
    else
      let st := make_id_loop lines 0 lines
        { hadcr := 0, hadlf := 0, line := LinePtr.offset 0, tmp_name := none }
      match type with
      | song_enum.TITLE => (read_tmp_name st.tmp_name).map (fun t => { cur with title := t })
      | song_enum.ARTIST => (read_tmp_name st.tmp_name).map (fun t => { cur with artist := t })
      | song_enum.GENRE => (read_tmp_name st.tmp_name).map (fun t => { cur with genre := t })
      | song_enum.ALBUM => (read_tmp_name st.tmp_name).map (fun t => { cur with album := t })
      | _ => some cur

/-- The four `mpg123_string` pointers of `mpg123_id3v2` that `id3_tagger` reads. -/
structure mpg123_id3v2 where
  title : Option (List Char)
  artist : Option (List Char)
  album : Option (List Char)
  genre : Option (List Char)
deriving DecidableEq, Repr

/-- What the mpg123 calls of `id3_tagger` return for the file. -/
inductive Id3Source
  /-- `mpg123_open` did not return `MPG123_OK` -/
  | open_failed
  /-- `meta & MPG123_ID3` is zero, or `mpg123_id3` did not return `MPG123_OK` -/
  | no_id3
  /-- the test of line 256 is true; `v2` may be `NULL` -/
  | id3 (v2 : Option mpg123_id3v2)
deriving DecidableEq, Repr

/-- The literal `"UNKNOWN"`. -/
def UNKNOWN : List Char := ['U', 'N', 'K', 'N', 'O', 'W', 'N']

/-- Lines 256-269 of `id3_tagger`: the four `make_id` calls, or the four
`sprintf` of `"UNKNOWN"`. -/
def id3_fields (src : Id3Source) (cur : song_info) : Option song_info :=
  match src with
  | Id3Source.open_failed => some cur
  | Id3Source.no_id3 =>
    some { cur with title := UNKNOWN, artist := UNKNOWN, album := UNKNOWN, genre := UNKNOWN }
  | Id3Source.id3 none => none
  | Id3Source.id3 (some v2) =>
    (((make_id v2.title song_enum.TITLE cur).bind (make_id v2.artist song_enum.ARTIST)).bind
      (make_id v2.album song_enum.ALBUM)).bind (make_id v2.genre song_enum.GENRE)

/-- Lines 271-284 of `id3_tagger`: the fallbacks for an empty title, artist
and album, the second row and the two scroll rows. -/
def id3_fallbacks (c1 : song_info) : Option song_info :=
  (if c1.title.length = 0 then
      (strcpy MAXDATALEN c1.base_filename).map (fun t => { c1 with title := t })
    else some c1).map (fun c2 =>
    let c3 := if c2.artist.length = 0 then { c2 with artist := UNKNOWN } else c2
    let c4 := if c3.album.length = 0 then { c3 with album := UNKNOWN } else c3
    let c5 := { c4 with second_row_text := c4.artist }
    { c5 with scroll_firstRow := c5.title.take 15,
              scroll_secondRow := c5.second_row_text.take 16 })

/-- The function `id3_tagger`: return value and `cur_song` afterwards; `none`
where the C code has no defined result (a `NULL` `v2`, an array overrun). -/
def id3_tagger (src : Id3Source) (cur : song_info) : Option (Int × song_info) :=
  match src with
  | Id3Source.open_failed => some (1, cur)
  | _ => ((id3_fields src cur).bind id3_fallbacks).map (fun c => (0, c))

/-- The function `basename` of libgen.h (POSIX): `"."` for the empty string,
trailing slashes dropped, `"/"` when nothing else is left, else the part after
the last slash. -/
def basename (path : List Char) : List Char :=
  if path = [] then ['.']
  else
    let stripped := (path.reverse.dropWhile (fun c => c = '/')).reverse
    if stripped = [] then ['/']
    else (stripped.reverse.takeWhile (fun c => c ≠ '/')).reverse

/-- Lines 495-498 of `main`: `filename` and `base_filename` of the track. -/
def load_filenames (string : List Char) (cur : song_info) : Option song_info :=
  (strcpy MAXDATALEN string).bind (fun f =>
    (strcpy MAXDATALEN (basename string)).map (fun b =>
      { cur with filename := f, base_filename := b }))

/-- Lines 495-500 of `main`: the file names, then `id3_tagger`. -/
def resolve_metadata (string : List Char) (src : Id3Source) (cur : song_info) :
    Option (Int × song_info) :=
  (load_filenames string cur).bind (id3_tagger src)

/-- Lines 594-596 of `main`, run after a NEXT or PREV: title, artist and album emptied. -/
def clear_metadata (cur : song_info) : song_info :=
  { cur with title := [], artist := [], album := [] }

/-! ## Sessions and schedules used below -/

/-- The controller moves and sees no button pressed. -/
def idle : Action := Action.controller false

/-- The controller moves and sees the button at its program point pressed. -/
def press : Action := Action.controller true

/-- The worker moves. -/
def work : Action := Action.worker

/-- The session of `lcd-mp3 a.mp3 b.mp3 c.mp3`, two chunks per file. -/
def session_abc : Config :=
  main_config ["a.mp3", "b.mp3", "c.mp3"] (fun _ => [10, 20])

/-- The session of `lcd-mp3 a.mp3`, one chunk. -/
def session_a : Config :=
  main_config ["a.mp3"] (fun _ => [10])

/-- Track 1 starts, the play button pauses it, the worker reads a chunk and
parks in `checkPause`, then the quit button is pressed and the controller goes
to `pthread_join`. -/
def pause_quit_schedule : List Action :=
  [idle, idle, press, work, work, idle, idle, idle, press, idle]

/-- As `pause_quit_schedule`, with the next button in place of the quit button. -/
def pause_next_schedule : List Action :=
  [idle, idle, press, work, work, idle, press, idle, idle, idle]

/-- Track 1 starts and the controller reaches the next button; the worker
plays both chunks, reads the end of the stream and passes the test of line
435; the next button is pressed; the worker stores PLAY (line 436); the
controller joins, updates and starts the following worker. -/
def race_next_schedule : List Action :=
  [idle, idle, idle, idle] ++ List.replicate 10 work ++
    [press, work, idle, idle, idle, idle, idle, idle]

/-- Track 1 starts and plays to its end with no button pressed; the controller
joins and runs the update of lines 583-600. -/
def play_one_schedule : List Action :=
  [idle] ++ List.replicate 7 work ++ [idle, idle, idle]

/-- Track 1 starts, the worker plays both chunks and passes the test of line
422, then the next button is pressed before the worker reads again. -/
def next_before_end_schedule : List Action :=
  [idle] ++ List.replicate 8 work ++ [idle, idle, idle, press]

/-- The worker has reached the report of line 432 while `play_status` is PAUSE. -/
def paused_at_report : State :=
  { init with worker := WorkerPc.report, play_status := status_enum.PAUSE }

/-- Scenario B: a.mp3 plays (index 1) and the controller is at the previous button. -/
def at_first_track : State :=
  exec session_abc [idle, work, idle, idle] init

/-- Track 1 starts, the next button is pressed, the worker plays one chunk and
ends, the controller joins and updates; the same for track 2; track 3 starts
and the controller goes to the next button. -/
def skip_to_last_schedule : List Action :=
  [idle, idle, idle, idle, press, idle, idle, idle] ++ List.replicate 5 work ++ [idle, idle] ++
  [idle, idle, idle, idle, press, idle, idle, idle] ++ List.replicate 5 work ++ [idle, idle] ++
  [idle, work, idle, idle, idle]

/-- The last track of three plays (index 3) and the controller is at the next button. -/
def at_last_track : State :=
  exec session_abc skip_to_last_schedule init

/-- One track of two chunks played to its end with no button pressed. -/
def natural_track_schedule : List Action :=
  [idle] ++ List.replicate 11 work ++ [idle, idle, idle]

/-- Scenario A: three tracks played to their ends, then the loop test. -/
def scenario_a_schedule : List Action :=
  natural_track_schedule ++ natural_track_schedule ++ natural_track_schedule ++ [idle]

/-- The file name `song.mp3`. -/
def song_mp3 : List Char := ['s', 'o', 'n', 'g', '.', 'm', 'p', '3']

/-- An ID3v2 tag whose title, artist, album and genre are all the empty
string (one zero byte, `fill = 1`). -/
def empty_tags : mpg123_id3v2 :=
  { title := some [NUL], artist := some [NUL], album := some [NUL], genre := some [NUL] }

/-- An ID3v2 tag without a title frame; artist `A`, album `B`, genre `C`. -/
def no_title_tags : mpg123_id3v2 :=
  { title := none, artist := some ['A', NUL], album := some ['B', NUL],
    genre := some ['C', NUL] }

/-- The texts of `cur_song` after a track with title `Old` has played to its end. -/
def after_old_track : song_info :=
  { song_info_zero with title := ['O', 'l', 'd'], artist := ['X'], album := ['Y'] }

/-- The texts of `cur_song` after `song.mp3` with `empty_tags` is resolved. -/
def resolved_song_mp3 : song_info :=
  { title := song_mp3, artist := UNKNOWN, genre := [], album := UNKNOWN,
    second_row_text := UNKNOWN, base_filename := song_mp3, filename := song_mp3,
    scroll_firstRow := song_mp3, scroll_secondRow := UNKNOWN }

/-! ## Invariants -/

/-- Index and file name of the workers started for `files`, counted from `i`. -/
def numbered : Int → List String → List (Int × String)
  | _, [] => []
  | i, f :: fs => (i, f) :: numbered (i + 1) fs

/-- The invariant of a session in which no button is pressed: `play_status`
is PLAY, the workers started so far are those of the first `m` files,
`song_index` and `song_over` fit the controller's program point, and inside
the loop body a worker exists and is not parked. -/
def NaturalInv (files : List String) (s : State) : Prop :=
  s.play_status = status_enum.PLAY ∧
  ∃ m : Nat, m ≤ files.length ∧ s.started = numbered 1 (files.take m) ∧
    (s.ctl = CtlPc.exited → m = files.length) ∧
    (s.ctl = CtlPc.loopHead →
      s.song_index = (m : Int) + 1 ∧ s.song_over = false ∧ s.worker = WorkerPc.absent) ∧
    (s.ctl = CtlPc.post →
      s.song_index = (m : Int) ∧ s.song_over = true ∧ s.worker = WorkerPc.absent) ∧
    (s.ctl ≠ CtlPc.exited → s.ctl ≠ CtlPc.loopHead → s.ctl ≠ CtlPc.post →
      s.song_index = (m : Int) ∧
      (s.worker = WorkerPc.setPlay ∨ s.worker = WorkerPc.done → s.song_over = true) ∧
      s.worker ≠ WorkerPc.absent ∧ s.worker ≠ WorkerPc.waiting)



/-- The index invariant of the session loop: `song_index` lies in `1..argc`,
and in `1..argc-1` while the controller is inside the loop body. -/
def IndexInv (cfg : Config) (s : State) : Prop :=
  1 ≤ s.song_index ∧ s.song_index ≤ cfg.argc ∧
  (s.ctl ≠ CtlPc.loopHead → s.ctl ≠ CtlPc.exited → s.song_index ≤ cfg.argc - 1)

/-! ### Playlist lemmas -/

theorem get_add_same {α : Type} (i : Int) (t : Option α) (pl : playlist_t α) :
    playlist_get_song i (playlist_add_song i t pl) = t := by
  induction pl with
  | nil => simp [playlist_add_song, playlist_get_song]
  | cons cur rest ih =>
    unfold playlist_add_song
    by_cases h1 : cur.index = i
    · simp [h1, playlist_get_song]
    · by_cases h2 : cur.index > i
      · simp [h1, h2, playlist_get_song]
      · simp [h1, h2, playlist_get_song, ih]

theorem get_add_other {α : Type} (i j : Int) (t : Option α) (pl : playlist_t α)
    (hij : i ≠ j) :
    playlist_get_song j (playlist_add_song i t pl) = playlist_get_song j pl := by
  induction pl with
  | nil =>
    simp only [playlist_add_song, playlist_get_song]
    simp [hij]
  | cons cur rest ih =>
    unfold playlist_add_song
    by_cases h1 : cur.index = i
    · simp only [h1, if_true, playlist_get_song, if_neg hij]
    · by_cases h2 : cur.index > i
      · simp only [h1, h2, if_true, if_false, playlist_get_song, if_neg hij]
        by_cases h3 : i > j
        · have h4 : cur.index > j := by omega
          have h5 : cur.index ≠ j := by omega
          simp [h3, h4, h5]
        · simp [h3]
      · simp only [h1, h2, if_false, playlist_get_song, ih]

theorem add_all_snoc {α : Type} (calls : List (Int × Option α)) (c : Int × Option α)
    (pl : playlist_t α) :
    add_all (calls ++ [c]) pl = playlist_add_song c.1 c.2 (add_all calls pl) := by
  simp [add_all, List.foldl_append]

theorem get_add_all_never {α : Type} (i : Int) (calls : List (Int × Option α))
    (pl : playlist_t α) (h : ∀ c ∈ calls, c.1 ≠ i) :
    playlist_get_song i (add_all calls pl) = playlist_get_song i pl := by
  induction calls using List.reverseRecOn with
  | nil => rfl
  | append_singleton pre c ih =>
    rw [add_all_snoc, get_add_other _ _ _ _ (h c (by simp))]
    exact ih (fun d hd => h d (by simp [hd]))


theorem populate_other (j : Int) :
    ∀ (args : List String) (i : Int) (pl : playlist_t String), j < i →
      playlist_get_song j (populate i args pl) = playlist_get_song j pl := by
  intro args
  induction args with
  | nil => intro i pl _; rfl
  | cons a rest ih =>
    intro i pl hji
    simp only [populate]
    rw [ih (i + 1) _ (by omega), get_add_other i j _ _ (by omega)]

/-- The playlist `main` builds holds `argv[i + k]` at index `i + k`. -/
theorem populate_lookup :
    ∀ (args : List String) (i : Int) (pl : playlist_t String) (k : Nat) (hk : k < args.length),
      playlist_get_song (i + (k : Int)) (populate i args pl) = some args[k] := by
  intro args
  induction args with
  | nil => intro i pl k hk; simp at hk
  | cons a rest ih =>
    intro i pl k hk
    simp only [populate]
    cases k with
    | zero =>
      simp only [Nat.cast_zero, add_zero, List.getElem_cons_zero]
      rw [populate_other i rest (i + 1) _ (by omega), get_add_same]
    | succ k =>
      have hk2 : k < rest.length := by simpa using hk
      have e : i + ((k + 1 : Nat) : Int) = (i + 1) + (k : Int) := by push_cast; ring
      rw [e, ih (i + 1) _ k hk2]
      simp

/-- The session of `main` fits the hypotheses on a populated playlist. -/
theorem main_config_populated (args : List String) (stream : String → List Nat) :
    (main_config args stream).argc = (args.length : Int) + 1 ∧
    ∀ k (hk : k < args.length),
      playlist_get_song ((k : Int) + 1) (main_config args stream).playlist = some args[k] := by
  refine ⟨rfl, ?_⟩
  intro k hk
  have h := populate_lookup args 1 playlist_init k hk
  rw [add_comm] at h
  exact h

theorem make_id_frame (x : Option (List Char)) (ty : song_enum) (c c2 : song_info)
    (h : make_id x ty c = some c2) :
    c2.base_filename = c.base_filename ∧
    (ty ≠ song_enum.TITLE → c2.title = c.title) ∧
    (ty ≠ song_enum.ARTIST → c2.artist = c.artist) ∧
    (ty ≠ song_enum.ALBUM → c2.album = c.album) ∧
    (ty ≠ song_enum.GENRE → c2.genre = c.genre) := by
  unfold make_id at h
  cases x with
  | none => simp at h; subst h; simp
  | some lines =>
    simp only at h
    split at h
    · simp at h; subst h; simp
    · cases ty <;> simp only [Option.map_eq_some'] at h
      all_goals (obtain ⟨t, _, rfl⟩ := h; simp)

theorem make_id_absent (x : Option (List Char)) (ty : song_enum) (c : song_info)
    (hx : x = none ∨ x = some []) : make_id x ty c = some c := by
  rcases hx with rfl | rfl <;> simp [make_id]

theorem make_id_empty_title (c : song_info) :
    make_id (some [NUL]) song_enum.TITLE c = some { c with title := [] } := by
  rfl

theorem make_id_empty_artist (c : song_info) :
    make_id (some [NUL]) song_enum.ARTIST c = some { c with artist := [] } := by
  rfl

theorem make_id_empty_album (c : song_info) :
    make_id (some [NUL]) song_enum.ALBUM c = some { c with album := [] } := by
  rfl

theorem id3_fallbacks_spec (c1 out : song_info) (h : id3_fallbacks c1 = some out) :
    (c1.title = [] → out.title = c1.base_filename) ∧
    (c1.title ≠ [] → out.title = c1.title) ∧
    (c1.artist = [] → out.artist = UNKNOWN) ∧
    (c1.artist ≠ [] → out.artist = c1.artist) ∧
    (c1.album = [] → out.album = UNKNOWN) ∧
    (c1.album ≠ [] → out.album = c1.album) ∧
    out.genre = c1.genre := by
  unfold id3_fallbacks at h
  simp only [Option.map_eq_some'] at h
  obtain ⟨c2, hc2, rfl⟩ := h
  by_cases ht : c1.title = []
  · simp only [ht, List.length_nil, if_true, Option.map_eq_some', strcpy] at hc2
    obtain ⟨t, ht2, rfl⟩ := hc2
    split at ht2
    · simp only [Option.some.injEq] at ht2
      subst ht2
      by_cases ha : c1.artist = [] <;> by_cases hb : c1.album = [] <;>
        simp [ht, ha, hb, UNKNOWN]
    · simp at ht2
  · have hlen : ¬ c1.title.length = 0 := by
      intro h0; exact ht (List.length_eq_zero.mp h0)
    simp only [hlen, if_false, Option.some.injEq] at hc2
    subst hc2
    by_cases ha : c1.artist = [] <;> by_cases hb : c1.album = [] <;>
      simp [ht, ha, hb, UNKNOWN]

theorem load_filenames_spec (string : List Char) (cur c0 : song_info)
    (h : load_filenames string cur = some c0) :
    c0.base_filename = basename string ∧ c0.title = cur.title ∧ c0.artist = cur.artist ∧
    c0.album = cur.album ∧ c0.genre = cur.genre := by
  unfold load_filenames strcpy at h
  split at h
  · simp only [Option.some_bind, Option.map_eq_some'] at h
    obtain ⟨b, hb, rfl⟩ := h
    split at hb
    · simp only [Option.some.injEq] at hb
      subst hb
      simp
    · simp at hb
  · simp at h

/-- After the reset of lines 594-596 an absent title falls back to the base name. -/
theorem cleared_title_falls_back :
    (resolve_metadata song_mp3 (Id3Source.id3 (some no_title_tags))
        (clear_metadata after_old_track)).map (fun r => r.2.title) = some song_mp3 := by
  decide

/-! ## Transport lemmas -/

theorem exec_nil (cfg : Config) (s : State) : exec cfg [] s = s := rfl

theorem exec_cons (cfg : Config) (a : Action) (acts : List Action) (s : State) :
    exec cfg (a :: acts) s = exec cfg acts (step cfg a s) := rfl

theorem exec_append (cfg : Config) (xs ys : List Action) (s : State) :
    exec cfg (xs ++ ys) s = exec cfg ys (exec cfg xs s) := by
  simp [exec, List.foldl_append]

/-- A state no action changes stays as it is under every schedule. -/
theorem exec_of_stuck (cfg : Config) (s : State) (h : ∀ a, step cfg a s = s) :
    ∀ acts, exec cfg acts s = s := by
  intro acts
  induction acts with
  | nil => rfl
  | cons a rest ih => rw [exec_cons, h a, ih]

/-- A property every step preserves holds along every schedule. -/
theorem exec_invariant (cfg : Config) (P : State → Prop)
    (hstep : ∀ a s, P s → P (step cfg a s)) :
    ∀ acts s, P s → P (exec cfg acts s) := by
  intro acts
  induction acts with
  | nil => intro s hs; exact hs
  | cons a rest ih => intro s hs; rw [exec_cons]; exact ih _ (hstep a s hs)

/-- The worker never touches `song_index` or the controller's program point. -/
theorem worker_step_ctl (s : State) :
    (worker_step s).song_index = s.song_index ∧ (worker_step s).ctl = s.ctl ∧
    (worker_step s).started = s.started := by
  unfold worker_step
  split <;> (try split) <;> simp

theorem IndexInv_controller (cfg : Config) (pressed : Bool) (s : State)
    (h : IndexInv cfg s) : IndexInv cfg (controller_step cfg pressed s) := by
  obtain ⟨h1, h2, h3⟩ := h
  unfold controller_step
  cases hc : s.ctl <;> simp only [hc] at h3 ⊢
  all_goals (repeat' split)
  all_goals simp_all [IndexInv, nextSong, prevSong, quitMe, pauseMe, playMe]
  all_goals omega

theorem IndexInv_step (cfg : Config) (a : Action) (s : State) (h : IndexInv cfg s) :
    IndexInv cfg (step cfg a s) := by
  cases a with
  | controller pressed => exact IndexInv_controller cfg pressed s h
  | worker =>
    obtain ⟨h1, h2, h3⟩ := worker_step_ctl s
    unfold IndexInv step
    simp only [h1, h2]
    exact h

theorem numbered_append (i : Int) (xs ys : List String) :
    numbered i (xs ++ ys) = numbered i xs ++ numbered (i + xs.length) ys := by
  induction xs generalizing i with
  | nil => simp [numbered]
  | cons x rest ih =>
    have e : i + 1 + (rest.length : Int) = i + ((rest.length : Int) + 1) := by ring
    show numbered i (x :: (rest ++ ys))
      = numbered i (x :: rest) ++ numbered (i + ((x :: rest).length : Nat)) ys
    simp only [numbered, List.length_cons, Nat.cast_add, Nat.cast_one, List.cons_append]
    rw [ih, e]

theorem numbered_take_succ (files : List String) (m : Nat) (hm : m < files.length) :
    numbered 1 (files.take (m + 1))
      = numbered 1 (files.take m) ++ [((m : Int) + 1, files[m])] := by
  rw [List.take_succ, numbered_append]
  have hlen : (files.take m).length = m := by
    rw [List.length_take]; omega
  simp [List.getElem?_eq_getElem hm, numbered, hlen, add_comm]

theorem NaturalInv_worker (files : List String) (s : State) (h : NaturalInv files s) :
    NaturalInv files (worker_step s) := by
  obtain ⟨hst, m, hm, hstarted, hex, hhead, hpost, hbody⟩ := h
  obtain ⟨h1, h2, h3⟩ := worker_step_ctl s
  have hps : (worker_step s).play_status = status_enum.PLAY := by
    unfold worker_step
    split <;> (try split) <;> simp [hst]
  refine ⟨hps, m, hm, by rw [h3]; exact hstarted, by rw [h2]; exact hex, ?_, ?_, ?_⟩
  · intro hc
    rw [h2] at hc
    obtain ⟨ha, hb, hw⟩ := hhead hc
    simp [worker_step, hw, ha, hb]
  · intro hc
    rw [h2] at hc
    obtain ⟨ha, hb, hw⟩ := hpost hc
    simp [worker_step, hw, ha, hb]
  · intro hc1 hc2 hc3
    rw [h2] at hc1 hc2 hc3
    obtain ⟨ha, hb, hna, hnw⟩ := hbody hc1 hc2 hc3
    refine ⟨by rw [h1]; exact ha, ?_⟩
    unfold worker_step
    cases hw : s.worker <;> simp only [hw] at hb hna hnw ⊢
    all_goals (repeat' split)
    all_goals simp_all

theorem NaturalInv_controller (cfg : Config) (files : List String)
    (hargc : cfg.argc = (files.length : Int) + 1)
    (hpl : ∀ k (hk : k < files.length),
      playlist_get_song ((k : Int) + 1) cfg.playlist = some files[k])
    (s : State) (h : NaturalInv files s) :
    NaturalInv files (controller_step cfg false s) := by
  obtain ⟨hst, m, hm, hstarted, hex, hhead, hpost, hbody⟩ := h
  cases hc : s.ctl
  case loopHead =>
    obtain ⟨hi, hso, hw⟩ := hhead hc
    by_cases hlt : m < files.length
    · have hcond : s.song_index < cfg.argc := by rw [hi, hargc]; omega
      have hstep : controller_step cfg false s =
          { s with decoder := cfg.stream files[m], worker := WorkerPc.read,
                   started := s.started ++ [(s.song_index, files[m])],
                   ctl := CtlPc.innerTest } := by
        have hcond2 : (m : Int) + 1 < cfg.argc := by rw [← hi]; exact hcond
        unfold controller_step
        simp [hc, hst, hcond2, hi, hpl m hlt]
      rw [hstep]
      refine ⟨hst, m + 1, hlt, ?_, ?_, ?_, ?_, ?_⟩
      · simp only [hstarted, hi]
        rw [numbered_take_succ files m hlt]
      · intro h; cases h
      · intro h; cases h
      · intro h; cases h
      · intro _ _ _
        refine ⟨by simp [hi], ?_, by simp, by simp⟩
        intro h
        rcases h with h | h <;> cases h
    · have hmeq : m = files.length := by omega
      have hcond : ¬ s.song_index < cfg.argc := by rw [hi, hargc]; omega
      have hstep : controller_step cfg false s = { s with ctl := CtlPc.exited } := by
        unfold controller_step
        simp [hc, hcond]
      rw [hstep]
      refine ⟨hst, m, hm, hstarted, fun _ => hmeq, ?_, ?_, ?_⟩
      · intro h; cases h
      · intro h; cases h
      · intro h; exact absurd rfl h
  case exited =>
    have hstep : controller_step cfg false s = s := by
      unfold controller_step
      simp [hc]
    rw [hstep]
    exact ⟨hst, m, hm, hstarted, hex, hhead, hpost, hbody⟩
  case post =>
    obtain ⟨hi, hso, hw⟩ := hpost hc
    have hstep : controller_step cfg false s =
        { s with song_over := false, song_index := s.song_index + 1,
                 ctl := CtlPc.loopHead } := by
      unfold controller_step
      simp [hc, hso, hst]
    rw [hstep]
    refine ⟨hst, m, hm, hstarted, ?_, ?_, ?_, ?_⟩
    · intro h; cases h
    · intro _; exact ⟨by simp [hi], rfl, hw⟩
    · intro h; cases h
    · intro _ h; exact absurd rfl h
  case join =>
    obtain ⟨hi, hso, hna, hnw⟩ := hbody (by simp [hc]) (by simp [hc]) (by simp [hc])
    by_cases hw : s.worker = WorkerPc.done
    · have hstep : controller_step cfg false s =
          { s with worker := WorkerPc.absent, ctl := CtlPc.post } := by
        unfold controller_step
        simp [hc, hw]
      rw [hstep]
      refine ⟨hst, m, hm, hstarted, ?_, ?_, ?_, ?_⟩
      · intro h; cases h
      · intro h; cases h
      · intro _; exact ⟨hi, hso (Or.inr hw), rfl⟩
      · intro _ _ h; exact absurd rfl h
    · have hstep : controller_step cfg false s = s := by
        unfold controller_step
        simp [hc, hw]
      rw [hstep]
      exact ⟨hst, m, hm, hstarted, hex, hhead, hpost, hbody⟩
  all_goals
    obtain ⟨hi, hso, hna, hnw⟩ := hbody (by simp [hc]) (by simp [hc]) (by simp [hc])
    refine ⟨?_, m, hm, ?_, ?_, ?_, ?_, ?_⟩ <;>
      (unfold controller_step; simp only [hc]) <;> (repeat' split) <;> simp_all

theorem NaturalInv_exec (cfg : Config) (files : List String)
    (hargc : cfg.argc = (files.length : Int) + 1)
    (hpl : ∀ k (hk : k < files.length),
      playlist_get_song ((k : Int) + 1) cfg.playlist = some files[k]) :
    ∀ (acts : List Action) (s : State), (∀ a ∈ acts, a ≠ Action.controller true) →
      NaturalInv files s → NaturalInv files (exec cfg acts s) := by
  intro acts
  induction acts with
  | nil => intro s _ hs; exact hs
  | cons a rest ih =>
    intro s hacts hs
    rw [exec_cons]
    apply ih _ (fun b hb => hacts b (List.mem_cons_of_mem a hb))
    cases a with
    | controller pressed =>
      cases pressed with
      | true => exact absurd rfl (hacts _ (List.mem_cons_self _ _))
      | false => exact NaturalInv_controller cfg files hargc hpl s hs
    | worker => exact NaturalInv_worker files s hs

/-- One pass of the loop of `play_song` on a chunk while `play_status` is PLAY. -/
theorem worker_plays_chunk (cfg : Config) (s : State) (c : Nat) (rest : List Nat)
    (hw : s.worker = WorkerPc.read) (hd : s.decoder = c :: rest)
    (hst : s.play_status = status_enum.PLAY) :
    exec cfg [work, work, work, work] s
      = { s with buffer := c, decoder := rest, sink := s.sink ++ [c] } := by
  cases s
  simp_all [exec, step, work, worker_step, skip_or_quit]

/-- With `play_status` PLAY and no controller step in between, the worker
plays every chunk and reports. -/
theorem worker_runs_to_end (cfg : Config) :
    ∀ (d : List Nat) (s : State), s.worker = WorkerPc.read → s.decoder = d →
      s.play_status = status_enum.PLAY →
      (exec cfg (List.replicate (4 * d.length + 3) work) s).worker = WorkerPc.done ∧
      (exec cfg (List.replicate (4 * d.length + 3) work) s).song_over = true ∧
      (exec cfg (List.replicate (4 * d.length + 3) work) s).play_status = status_enum.PLAY ∧
      (exec cfg (List.replicate (4 * d.length + 3) work) s).ctl = s.ctl ∧
      (exec cfg (List.replicate (4 * d.length + 3) work) s).song_index = s.song_index ∧
      (exec cfg (List.replicate (4 * d.length + 3) work) s).started = s.started ∧
      (exec cfg (List.replicate (4 * d.length + 3) work) s).sink = s.sink ++ d := by
  intro d
  induction d with
  | nil =>
    intro s hw hd hst
    cases s
    simp_all [exec, step, work, worker_step, skip_or_quit, List.replicate]
  | cons c rest ih =>
    intro s hw hd hst
    have hk : 4 * (c :: rest).length + 3 = 4 + (4 * rest.length + 3) := by
      simp only [List.length_cons]; omega
    have hrep : List.replicate (4 * (c :: rest).length + 3) work
        = [work, work, work, work] ++ List.replicate (4 * rest.length + 3) work := by
      rw [hk, List.replicate_add]
      rfl
    rw [hrep, exec_append, worker_plays_chunk cfg s c rest hw hd hst]
    obtain ⟨h1, h2, h3, h4, h5, h6, h7⟩ :=
      ih { s with buffer := c, decoder := rest, sink := s.sink ++ [c] } hw rfl hst
    refine ⟨h1, h2, h3, h4, h5, h6, ?_⟩
    rw [h7]
    simp

theorem controller_innerTest_over (cfg : Config) (pressed : Bool) (s : State)
    (hc : s.ctl = CtlPc.innerTest) (hso : s.song_over = true) :
    controller_step cfg pressed s = { s with ctl := CtlPc.join } := by
  unfold controller_step
  simp [hc, hso]

theorem controller_join_done (cfg : Config) (pressed : Bool) (s : State)
    (hc : s.ctl = CtlPc.join) (hw : s.worker = WorkerPc.done) :
    controller_step cfg pressed s = { s with worker := WorkerPc.absent, ctl := CtlPc.post } := by
  unfold controller_step
  simp [hc, hw]

theorem controller_post_play (cfg : Config) (pressed : Bool) (s : State)
    (hc : s.ctl = CtlPc.post) (hso : s.song_over = true)
    (hst : s.play_status = status_enum.PLAY) :
    controller_step cfg pressed s
      = { s with song_over := false, song_index := s.song_index + 1,
                 ctl := CtlPc.loopHead } := by
  unfold controller_step
  simp [hc, hso, hst]

/-- With `play_status` PLAY and no controller step in between, a worker at
any program point other than the wait of `checkPause` runs to its end. -/
theorem worker_finishes (cfg : Config) (s : State)
    (hst : s.play_status = status_enum.PLAY)
    (hna : s.worker ≠ WorkerPc.absent) (hnw : s.worker ≠ WorkerPc.waiting)
    (hso : s.worker = WorkerPc.setPlay ∨ s.worker = WorkerPc.done → s.song_over = true) :
    ∃ k, (exec cfg (List.replicate k work) s).worker = WorkerPc.done ∧
      (exec cfg (List.replicate k work) s).song_over = true ∧
      (exec cfg (List.replicate k work) s).play_status = status_enum.PLAY ∧
      (exec cfg (List.replicate k work) s).ctl = s.ctl ∧
      (exec cfg (List.replicate k work) s).song_index = s.song_index ∧
      (exec cfg (List.replicate k work) s).started = s.started := by
  have hread : ∀ (j : Nat) (s1 : State), exec cfg (List.replicate j work) s = s1 →
      s1.worker = WorkerPc.read → s1.play_status = status_enum.PLAY → s1.ctl = s.ctl →
      s1.song_index = s.song_index → s1.started = s.started →
      ∃ k, (exec cfg (List.replicate k work) s).worker = WorkerPc.done ∧
        (exec cfg (List.replicate k work) s).song_over = true ∧
        (exec cfg (List.replicate k work) s).play_status = status_enum.PLAY ∧
        (exec cfg (List.replicate k work) s).ctl = s.ctl ∧
        (exec cfg (List.replicate k work) s).song_index = s.song_index ∧
        (exec cfg (List.replicate k work) s).started = s.started := by
    intro j s1 hj hw1 hst1 hc1 hi1 hs1
    obtain ⟨w1, w2, w3, w4, w5, w6, _⟩ := worker_runs_to_end cfg s1.decoder s1 hw1 rfl hst1
    refine ⟨j + (4 * s1.decoder.length + 3), ?_⟩
    rw [List.replicate_add, exec_append, hj]
    exact ⟨w1, w2, w3, by rw [w4, hc1], by rw [w5, hi1], by rw [w6, hs1]⟩
  cases hw : s.worker
  case absent => exact absurd hw hna
  case waiting => exact absurd hw hnw
  case read => exact hread 0 s rfl hw hst rfl rfl rfl
  case checkPause =>
    refine hread 3 { s with sink := s.sink ++ [s.buffer], worker := WorkerPc.read }
      ?_ rfl hst rfl rfl rfl
    cases s
    simp_all [exec, step, work, worker_step, skip_or_quit, List.replicate]
  case play =>
    refine hread 2 { s with sink := s.sink ++ [s.buffer], worker := WorkerPc.read }
      ?_ rfl hst rfl rfl rfl
    cases s
    simp_all [exec, step, work, worker_step, skip_or_quit, List.replicate]
  case check =>
    refine hread 1 { s with worker := WorkerPc.read } ?_ rfl hst rfl rfl rfl
    cases s
    simp_all [exec, step, work, worker_step, skip_or_quit, List.replicate]
  case report =>
    refine ⟨2, ?_⟩
    cases s
    simp_all [exec, step, work, worker_step, skip_or_quit, List.replicate]
  case setPlay =>
    refine ⟨1, ?_⟩
    have := hso (Or.inl hw)
    cases s
    simp_all [exec, step, work, worker_step, skip_or_quit, List.replicate]
  case done =>
    refine ⟨0, ?_⟩
    have := hso (Or.inr hw)
    cases s
    simp_all [exec, step, work, worker_step, skip_or_quit, List.replicate]

/-- Once the worker has reported a natural end, the controller, with no button
pressed, reaches the loop test with `song_index` advanced by one. -/
theorem controller_reaches_loop_test (cfg : Config) (s : State)
    (hw : s.worker = WorkerPc.done) (hso : s.song_over = true)
    (hst : s.play_status = status_enum.PLAY)
    (h1 : s.ctl ≠ CtlPc.exited) (h2 : s.ctl ≠ CtlPc.loopHead) (h3 : s.ctl ≠ CtlPc.post) :
    ∃ k, exec cfg (List.replicate k idle) s
      = { s with worker := WorkerPc.absent, song_over := false,
                 song_index := s.song_index + 1, ctl := CtlPc.loopHead } := by
  cases hc : s.ctl
  case exited => exact absurd hc h1
  case loopHead => exact absurd hc h2
  case post => exact absurd hc h3
  case innerTest =>
    refine ⟨3, ?_⟩
    cases s
    simp_all [exec, step, idle, controller_step, List.replicate]
  case pollPlay =>
    refine ⟨8, ?_⟩
    cases s
    simp_all [exec, step, idle, controller_step, List.replicate]
  case pollPrev =>
    refine ⟨7, ?_⟩
    cases s
    simp_all [exec, step, idle, controller_step, List.replicate]
  case pollNext =>
    refine ⟨6, ?_⟩
    cases s
    simp_all [exec, step, idle, controller_step, List.replicate]
  case pollInfo =>
    refine ⟨5, ?_⟩
    cases s
    simp_all [exec, step, idle, controller_step, List.replicate]
  case pollQuit =>
    refine ⟨4, ?_⟩
    cases s
    simp_all [exec, step, idle, controller_step, List.replicate]
  case join =>
    refine ⟨2, ?_⟩
    cases s
    simp_all [exec, step, idle, controller_step, List.replicate]

/-- From the loop test with the first `m` files played, a schedule without
button presses plays the other files in order and ends the session. -/
theorem session_runs_from (cfg : Config) (files : List String)
    (hargc : cfg.argc = (files.length : Int) + 1)
    (hpl : ∀ k (hk : k < files.length),
      playlist_get_song ((k : Int) + 1) cfg.playlist = some files[k]) :
    ∀ (j m : Nat) (s : State), m + j = files.length →
      s.ctl = CtlPc.loopHead → s.play_status = status_enum.PLAY → s.song_over = false →
      s.song_index = (m : Int) + 1 → s.started = numbered 1 (files.take m) →
      ∃ acts, (∀ a ∈ acts, a ≠ Action.controller true) ∧
        (exec cfg acts s).ctl = CtlPc.exited ∧
        (exec cfg acts s).started = numbered 1 files := by
  intro j
  induction j with
  | zero =>
    intro m s hmj hc hst hso hi hstart
    have hm : m = files.length := by omega
    refine ⟨[idle], by simp [idle], ?_, ?_⟩
    · have hcond : ¬ s.song_index < cfg.argc := by rw [hi, hargc]; omega
      simp [exec, step, idle, controller_step, hc, hcond]
    · have hcond : ¬ s.song_index < cfg.argc := by rw [hi, hargc]; omega
      simp [exec, step, idle, controller_step, hc, hcond, hstart, hm]
  | succ j ih =>
    intro m s hmj hc hst hso hi hstart
    have hlt : m < files.length := by omega
    have hcond2 : (m : Int) + 1 < cfg.argc := by rw [hargc]; omega
    have hstep : controller_step cfg false s =
        { s with decoder := cfg.stream files[m], worker := WorkerPc.read,
                 started := s.started ++ [(s.song_index, files[m])],
                 ctl := CtlPc.innerTest } := by
      unfold controller_step
      simp [hc, hst, hcond2, hi, hpl m hlt]
    obtain ⟨w1, w2, w3, w4, w5, w6, _⟩ := worker_runs_to_end cfg (cfg.stream files[m])
      { s with decoder := cfg.stream files[m], worker := WorkerPc.read,
               started := s.started ++ [(s.song_index, files[m])],
               ctl := CtlPc.innerTest } rfl rfl hst
    generalize hs2 : exec cfg (List.replicate (4 * (cfg.stream files[m]).length + 3) work)
      { s with decoder := cfg.stream files[m], worker := WorkerPc.read,
               started := s.started ++ [(s.song_index, files[m])],
               ctl := CtlPc.innerTest } = s2 at w1 w2 w3 w4 w5 w6
    simp only at w4 w5 w6
    obtain ⟨acts, hacts, hfin1, hfin2⟩ := ih (m + 1)
      { s2 with worker := WorkerPc.absent, song_over := false,
                song_index := s2.song_index + 1, ctl := CtlPc.loopHead }
      (by omega) rfl w3 rfl (by simp [w5, hi])
      (by simp only [w6, hstart, hi]; rw [numbered_take_succ files m hlt])
    refine ⟨[idle] ++ List.replicate (4 * (cfg.stream files[m]).length + 3) work
      ++ [idle, idle, idle] ++ acts, ?_, ?_⟩
    · intro a ha
      simp only [List.mem_append, List.mem_singleton, List.mem_replicate, List.mem_cons,
        List.mem_nil_iff, or_false] at ha
      rcases ha with ((rfl | ⟨_, rfl⟩) | (rfl | rfl | rfl)) | ha
      all_goals first
        | exact hacts _ ha
        | simp [idle, work]
    · have hrun : exec cfg ([idle] ++ List.replicate (4 * (cfg.stream files[m]).length + 3) work
          ++ [idle, idle, idle] ++ acts) s
          = exec cfg acts
              { s2 with worker := WorkerPc.absent, song_over := false,
                        song_index := s2.song_index + 1, ctl := CtlPc.loopHead } := by
        rw [exec_append, exec_append, exec_append]
        have e1 : exec cfg [idle] s = controller_step cfg false s := rfl
        rw [e1, hstep, hs2]
        have e2 : exec cfg [idle, idle, idle] s2
            = controller_step cfg false (controller_step cfg false
                (controller_step cfg false s2)) := rfl
        rw [e2, controller_innerTest_over cfg false s2 w4 w2,
          controller_join_done cfg false { s2 with ctl := CtlPc.join } rfl w1,
          controller_post_play cfg false
            { s2 with worker := WorkerPc.absent, ctl := CtlPc.post } rfl w2 w3]
      rw [hrun]
      exact ⟨hfin1, hfin2⟩

/-- From every state of a session without button presses, some schedule
without button presses plays the remaining files and ends the session. -/
theorem session_can_end (cfg : Config) (files : List String)
    (hargc : cfg.argc = (files.length : Int) + 1)
    (hpl : ∀ k (hk : k < files.length),
      playlist_get_song ((k : Int) + 1) cfg.playlist = some files[k])
    (s : State) (h : NaturalInv files s) :
    ∃ acts, (∀ a ∈ acts, a ≠ Action.controller true) ∧
      (exec cfg acts s).ctl = CtlPc.exited ∧
      (exec cfg acts s).started = numbered 1 files := by
  obtain ⟨hst, m, hm, hstarted, hex, hhead, hpost, hbody⟩ := h
  by_cases hc1 : s.ctl = CtlPc.exited
  · refine ⟨[], by simp, hc1, ?_⟩
    rw [exec_nil, hstarted, hex hc1, List.take_length]
  by_cases hc2 : s.ctl = CtlPc.loopHead
  · obtain ⟨hi, hso, _⟩ := hhead hc2
    exact session_runs_from cfg files hargc hpl (files.length - m) m s (by omega)
      hc2 hst hso hi hstarted
  by_cases hc3 : s.ctl = CtlPc.post
  · obtain ⟨hi, hso, _⟩ := hpost hc3
    obtain ⟨acts, hacts, hfin1, hfin2⟩ := session_runs_from cfg files hargc hpl
      (files.length - m) m
      { s with song_over := false, song_index := s.song_index + 1, ctl := CtlPc.loopHead }
      (by omega) rfl hst rfl (by simp [hi]) hstarted
    refine ⟨[idle] ++ acts, ?_, ?_⟩
    · intro a ha
      simp only [List.mem_append, List.mem_singleton] at ha
      rcases ha with rfl | ha
      · simp [idle]
      · exact hacts a ha
    · have e1 : exec cfg [idle] s = controller_step cfg false s := rfl
      rw [exec_append, e1, controller_post_play cfg false s hc3 hso hst]
      exact ⟨hfin1, hfin2⟩
  obtain ⟨hi, hso, hna, hnw⟩ := hbody hc1 hc2 hc3
  obtain ⟨k, w1, w2, w3, w4, w5, w6⟩ := worker_finishes cfg s hst hna hnw hso
  generalize hs1 : exec cfg (List.replicate k work) s = s1 at w1 w2 w3 w4 w5 w6
  obtain ⟨k2, hk2⟩ := controller_reaches_loop_test cfg s1 w1 w2 w3
    (by rw [w4]; exact hc1) (by rw [w4]; exact hc2) (by rw [w4]; exact hc3)
  obtain ⟨acts, hacts, hfin1, hfin2⟩ := session_runs_from cfg files hargc hpl
    (files.length - m) m
    { s1 with worker := WorkerPc.absent, song_over := false,
              song_index := s1.song_index + 1, ctl := CtlPc.loopHead }
    (by omega) rfl w3 rfl (by simp [w5, hi]) (by simp only [w6, hstarted])
  refine ⟨List.replicate k work ++ List.replicate k2 idle ++ acts, ?_, ?_⟩
  · intro a ha
    simp only [List.mem_append, List.mem_replicate] at ha
    rcases ha with (⟨_, rfl⟩ | ⟨_, rfl⟩) | ha
    · simp [work]
    · simp [idle]
    · exact hacts a ha
  · rw [exec_append, exec_append, hs1, hk2]
    exact ⟨hfin1, hfin2⟩

/-- A worker inside the loop of `play_song` that is not parked in `checkPause`
and finds `play_status` at QUIT, NEXT or PREV ends within five steps, having
written at most one more chunk, with `song_over = TRUE` and the status kept. -/
theorem worker_exits_within_one_chunk (cfg : Config) (s : State)
    (hq : skip_or_quit s.play_status = true)
    (hw : s.worker = WorkerPc.read ∨ s.worker = WorkerPc.checkPause ∨
      s.worker = WorkerPc.play ∨ s.worker = WorkerPc.check) :
    ∃ k, k ≤ 5 ∧
      (exec cfg (List.replicate k work) s).worker = WorkerPc.done ∧
      (exec cfg (List.replicate k work) s).song_over = true ∧
      (exec cfg (List.replicate k work) s).play_status = s.play_status ∧
      ((exec cfg (List.replicate k work) s).sink = s.sink ∨
        ∃ c, (exec cfg (List.replicate k work) s).sink = s.sink ++ [c]) := by
  have hnp : s.play_status ≠ status_enum.PAUSE := by
    intro h; rw [h] at hq; simp [skip_or_quit] at hq
  rcases hw with hw | hw | hw | hw
  · cases hd : s.decoder with
    | nil =>
      refine ⟨2, by omega, ?_⟩
      cases s
      simp_all [exec, step, work, worker_step, List.replicate]
    | cons c rest =>
      refine ⟨5, by omega, ?_⟩
      cases s
      simp_all [exec, step, work, worker_step, List.replicate]
  · refine ⟨4, by omega, ?_⟩
    cases s
    simp_all [exec, step, work, worker_step, List.replicate]
  · refine ⟨3, by omega, ?_⟩
    cases s
    simp_all [exec, step, work, worker_step, List.replicate]
  · refine ⟨2, by omega, ?_⟩
    cases s
    simp_all [exec, step, work, worker_step, List.replicate]

/-- The broadcast of `playMe` wakes a parked worker, which then passes the
test of `checkPause`. -/
theorem playMe_wakes_worker (s : State) (hw : s.worker = WorkerPc.waiting) :
    (playMe s).worker = WorkerPc.checkPause ∧
    (worker_step (playMe s)).worker = WorkerPc.play := by
  cases s
  simp_all [playMe, worker_step]

/-- The controller's part of a skip: an accepted next or previous press moves
`song_index` by one and stores NEXT or PREV with `song_over = TRUE`; the update
after the track, finding NEXT or PREV, keeps `song_index`, stores PLAY and
clears `song_over`. -/
theorem accepted_skip_controller_steps (cfg : Config) (s : State) :
    (s.ctl = CtlPc.pollNext → s.song_index + 1 < cfg.argc →
      controller_step cfg true s
        = { nextSong s with song_index := s.song_index + 1, ctl := CtlPc.pollInfo }) ∧
    (s.ctl = CtlPc.pollPrev → s.song_index - 1 ≠ 0 →
      controller_step cfg true s
        = { prevSong s with song_index := s.song_index - 1, ctl := CtlPc.pollNext }) ∧
    (s.ctl = CtlPc.post → s.song_over = true →
      s.play_status = status_enum.NEXT ∨ s.play_status = status_enum.PREV →
      ∀ pressed, controller_step cfg pressed s
        = { s with play_status := status_enum.PLAY, song_over := false,
                   ctl := CtlPc.loopHead }) := by
  refine ⟨?_, ?_, ?_⟩
  · intro hc hi
    unfold controller_step
    simp [hc, hi]
  · intro hc hi
    unfold controller_step
    simp [hc, hi]
  · intro hc hso hst pressed
    unfold controller_step
    rcases hst with hst | hst <;> simp [hc, hso, hst]

/-! ## Claims about the transport -/

/-- C2 (the code at the failing input): pause, then quit.  The worker is
parked in `pthread_cond_wait` while `play_status` is QUIT, the controller is
in `pthread_join`, and no schedule changes this state any more. -/
theorem pause_then_quit_deadlock :
    (exec session_a pause_quit_schedule init).worker = WorkerPc.waiting ∧
    (exec session_a pause_quit_schedule init).play_status = status_enum.QUIT ∧
    (exec session_a pause_quit_schedule init).ctl = CtlPc.join ∧
    ∀ acts, exec session_a acts (exec session_a pause_quit_schedule init)
      = exec session_a pause_quit_schedule init := by
  refine ⟨by decide, by decide, by decide, ?_⟩
  apply exec_of_stuck
  intro a
  cases a with
  | controller pressed => rfl
  | worker => rfl

/-- C10 (the code at the failing input): pause, then next.  `play_status` is
NEXT, the decoder still has a chunk, and under every further schedule the
worker stays parked in `checkPause`: the loop of `play_song` never exits. -/
theorem pause_then_next_loop_never_exits :
    (exec session_abc pause_next_schedule init).play_status = status_enum.NEXT ∧
    (exec session_abc pause_next_schedule init).decoder = [20] ∧
    ∀ acts,
      (exec session_abc acts (exec session_abc pause_next_schedule init)).worker
        = WorkerPc.waiting ∧
      (exec session_abc acts (exec session_abc pause_next_schedule init)).started
        = [(1, "a.mp3")] := by
  refine ⟨by decide, by decide, ?_⟩
  intro acts
  have h : exec session_abc acts (exec session_abc pause_next_schedule init)
      = exec session_abc pause_next_schedule init := by
    apply exec_of_stuck
    intro a
    cases a with
    | controller pressed => rfl
    | worker => rfl
  rw [h]
  exact ⟨by decide, by decide⟩

/-- C7 (the code at two failing inputs).  First: the next button is pressed
during track 1 between the worker's test of line 435 and its store of line
436; the store overwrites NEXT with PLAY, the update of line 583 adds 1 again,
and the worker after track 1 is started for index 3.  Second: the next button
is pressed while the worker of track 1 is parked in `checkPause`;
`song_index` is 2, and under every further schedule no second worker is
started. -/
theorem accepted_next_misses_adjacent_track :
    (exec session_abc race_next_schedule init).started = [(1, "a.mp3"), (3, "c.mp3")] ∧
    (exec session_abc race_next_schedule init).song_index = 3 ∧
    (exec session_abc pause_next_schedule init).song_index = 2 ∧
    ∀ acts,
      (exec session_abc acts (exec session_abc pause_next_schedule init)).started
        = [(1, "a.mp3")] ∧
      (exec session_abc acts (exec session_abc pause_next_schedule init)).ctl = CtlPc.join := by
  refine ⟨by decide, by decide, by decide, ?_⟩
  intro acts
  have h : exec session_abc acts (exec session_abc pause_next_schedule init)
      = exec session_abc pause_next_schedule init := by
    apply exec_of_stuck
    intro a
    cases a with
    | controller pressed => rfl
    | worker => rfl
  rw [h]
  exact ⟨by decide, by decide⟩

/-- C3 (counterexample): with one track (`argc - 1 = 1`) played to its end,
`song_index` is 2 at the loop test of line 488. -/
theorem song_index_exceeds_last_index :
    session_a.argc - 1 = 1 ∧
    (exec session_a play_one_schedule init).ctl = CtlPc.loopHead ∧
    (exec session_a play_one_schedule init).song_index = 2 ∧
    ¬ ((exec session_a play_one_schedule init).song_index ≤ session_a.argc - 1) := by
  exact ⟨by decide, by decide, by decide, by decide⟩

/-- C6 (counterexample): the next button is pressed after the worker's last
test of line 422; `mpg123_read` then finds the stream at its end, so the loop
ends on its own, and the report leaves `play_status` at NEXT, not PLAY. -/
theorem report_after_own_end_keeps_next :
    (exec session_abc next_before_end_schedule init).worker = WorkerPc.read ∧
    (exec session_abc next_before_end_schedule init).decoder = [] ∧
    (worker_step (exec session_abc next_before_end_schedule init)).worker = WorkerPc.report ∧
    (worker_step (worker_step (exec session_abc next_before_end_schedule init))).worker
      = WorkerPc.done ∧
    (worker_step (worker_step (exec session_abc next_before_end_schedule init))).song_over
      = true ∧
    (worker_step (worker_step (exec session_abc next_before_end_schedule init))).play_status
      = status_enum.NEXT := by
  exact ⟨by decide, by decide, by decide, by decide, by decide, by decide⟩

/-- C3 (amended): for `argc ≥ 1` and every schedule of controller steps (with
any buttons pressed) and worker steps, `song_index` is at least 1 and at most
`argc = n + 1`; it is at most `n = argc - 1` whenever the controller is inside
the loop body (from the worker start to the update after the track); and at
the loop test with `song_index = argc` the next controller step ends the loop. -/
theorem song_index_bounds (cfg : Config) (hargc : 1 ≤ cfg.argc) (acts : List Action) :
    1 ≤ (exec cfg acts init).song_index ∧
    (exec cfg acts init).song_index ≤ cfg.argc ∧
    ((exec cfg acts init).ctl ≠ CtlPc.loopHead → (exec cfg acts init).ctl ≠ CtlPc.exited →
      (exec cfg acts init).song_index ≤ cfg.argc - 1) ∧
    ((exec cfg acts init).ctl = CtlPc.loopHead → (exec cfg acts init).song_index = cfg.argc →
      ∀ pressed, (controller_step cfg pressed (exec cfg acts init)).ctl = CtlPc.exited) := by
  have hinv : IndexInv cfg (exec cfg acts init) :=
    exec_invariant cfg (IndexInv cfg) (IndexInv_step cfg) acts init
      ⟨by decide, by simpa [init] using hargc, by intro h; exact absurd rfl h⟩
  refine ⟨hinv.1, hinv.2.1, hinv.2.2, ?_⟩
  intro hc hi pressed
  unfold controller_step
  simp [hc, hi]

/-- C3 (amended) at Scenario A's session, after track 1 and a next press. -/
theorem song_index_bounds_witness :
    1 ≤ (exec session_abc next_before_end_schedule init).song_index ∧
    (exec session_abc next_before_end_schedule init).song_index ≤ session_abc.argc ∧
    ((exec session_abc next_before_end_schedule init).ctl ≠ CtlPc.loopHead →
      (exec session_abc next_before_end_schedule init).ctl ≠ CtlPc.exited →
      (exec session_abc next_before_end_schedule init).song_index ≤ session_abc.argc - 1) ∧
    ((exec session_abc next_before_end_schedule init).ctl = CtlPc.loopHead →
      (exec session_abc next_before_end_schedule init).song_index = session_abc.argc →
      ∀ pressed, (controller_step session_abc pressed
        (exec session_abc next_before_end_schedule init)).ctl = CtlPc.exited) :=
  song_index_bounds session_abc (by decide) next_before_end_schedule

/-- C4: a previous press at `song_index = 1` and a next press at
`song_index = argc - 1` change nothing but the controller's program point:
`song_index`, `play_status`, `song_over`, the worker, the decoder and the sink
are as before, and the worker's next step is the one it would have taken. -/
theorem denied_skip_changes_nothing (cfg : Config) (s : State) :
    (s.ctl = CtlPc.pollPrev → s.song_index = 1 →
      controller_step cfg true s = { s with ctl := CtlPc.pollNext } ∧
      worker_step (controller_step cfg true s) = { worker_step s with ctl := CtlPc.pollNext }) ∧
    (s.ctl = CtlPc.pollNext → s.song_index = cfg.argc - 1 →
      controller_step cfg true s = { s with ctl := CtlPc.pollInfo } ∧
      worker_step (controller_step cfg true s) = { worker_step s with ctl := CtlPc.pollInfo }) := by
  have hw : ∀ c, worker_step { s with ctl := c } = { worker_step s with ctl := c } := by
    intro c
    unfold worker_step
    cases hwk : s.worker <;> simp only [hwk]
    · cases hd : s.decoder <;> simp only [hd]
    · split <;> rfl
    · split <;> rfl
    · split <;> rfl
  constructor
  · intro hc hi
    have h : controller_step cfg true s = { s with ctl := CtlPc.pollNext } := by
      unfold controller_step
      simp [hc, hi]
    rw [h]
    exact ⟨rfl, hw _⟩
  · intro hc hi
    have h : controller_step cfg true s = { s with ctl := CtlPc.pollInfo } := by
      unfold controller_step
      simp [hc, hi]
    rw [h]
    exact ⟨rfl, hw _⟩

/-- C4 at Scenario B: a previous press at index 1 while a.mp3 plays, and a
next press at index 3 of 3. -/
theorem denied_skip_changes_nothing_witness :
    (controller_step session_abc true (at_first_track)
        = { at_first_track with ctl := CtlPc.pollNext } ∧
      worker_step (controller_step session_abc true (at_first_track))
        = { worker_step (at_first_track) with
            ctl := CtlPc.pollNext }) ∧
    (controller_step session_abc true
        at_last_track
        = { at_last_track with ctl := CtlPc.pollInfo } ∧
      worker_step (controller_step session_abc true
        at_last_track)
        = { worker_step at_last_track with ctl := CtlPc.pollInfo }) :=
  ⟨(denied_skip_changes_nothing session_abc (at_first_track)).1
      (by decide) (by decide),
   (denied_skip_changes_nothing session_abc
      at_last_track).2
      (by decide) (by decide)⟩

/-- C6 (amended): run from line 432 without a controller step in between, the
report ends the worker with `song_over = TRUE`; `play_status` becomes PLAY
exactly when the status the report reads is none of QUIT, NEXT and PREV (so
PAUSE becomes PLAY), and a QUIT, NEXT or PREV status is left as it is. -/
theorem completion_report_keys_on_status (s : State) (h : s.worker = WorkerPc.report) :
    (worker_step (worker_step s)).worker = WorkerPc.done ∧
    (worker_step (worker_step s)).song_over = true ∧
    ((worker_step (worker_step s)).play_status = status_enum.PLAY ↔
      (s.play_status ≠ status_enum.QUIT ∧ s.play_status ≠ status_enum.NEXT ∧
        s.play_status ≠ status_enum.PREV)) ∧
    (s.play_status = status_enum.PAUSE →
      (worker_step (worker_step s)).play_status = status_enum.PLAY) ∧
    ((s.play_status = status_enum.QUIT ∨ s.play_status = status_enum.NEXT ∨
        s.play_status = status_enum.PREV) →
      (worker_step (worker_step s)).play_status = s.play_status) := by
  cases hst : s.play_status <;>
    simp [worker_step, h, hst, skip_or_quit]

/-- C6 (amended) at a paused worker state that has reached the report. -/
theorem completion_report_keys_on_status_witness :
    (worker_step (worker_step paused_at_report)).worker = WorkerPc.done ∧
    (worker_step (worker_step paused_at_report)).song_over = true ∧
    ((worker_step (worker_step paused_at_report)).play_status = status_enum.PLAY ↔
      (status_enum.PAUSE ≠ status_enum.QUIT ∧ status_enum.PAUSE ≠ status_enum.NEXT ∧
        status_enum.PAUSE ≠ status_enum.PREV)) ∧
    (status_enum.PAUSE = status_enum.PAUSE →
      (worker_step (worker_step paused_at_report)).play_status = status_enum.PLAY) ∧
    ((status_enum.PAUSE = status_enum.QUIT ∨ status_enum.PAUSE = status_enum.NEXT ∨
        status_enum.PAUSE = status_enum.PREV) →
      (worker_step (worker_step paused_at_report)).play_status = status_enum.PAUSE) :=
  completion_report_keys_on_status
    paused_at_report rfl

/-- C5: for a playlist that holds `files[k]` at index `k + 1` for every
`k < n` and `argc = n + 1`, with no button pressed: under every schedule the
workers started so far are those of indices `1, ..., m` in this order for some
`m ≤ n`, one each, and once the session loop has ended they are those of
`1, ..., n`; and every such schedule (the empty one included) can be continued
to one under which the session loop ends, so the session never gets stuck. -/
theorem natural_completion_plays_in_order (cfg : Config) (files : List String)
    (hargc : cfg.argc = (files.length : Int) + 1)
    (hpl : ∀ k (hk : k < files.length),
      playlist_get_song ((k : Int) + 1) cfg.playlist = some files[k]) :
    (∀ acts, (∀ a ∈ acts, a ≠ Action.controller true) →
      ∃ m, m ≤ files.length ∧
        (exec cfg acts init).started = numbered 1 (files.take m) ∧
        ((exec cfg acts init).ctl = CtlPc.exited →
          (exec cfg acts init).started = numbered 1 files)) ∧
    (∀ acts, (∀ a ∈ acts, a ≠ Action.controller true) →
      ∃ more, (∀ a ∈ more, a ≠ Action.controller true) ∧
        (exec cfg (acts ++ more) init).ctl = CtlPc.exited ∧
        (exec cfg (acts ++ more) init).started = numbered 1 files) := by
  have hinit : NaturalInv files init := by
    refine ⟨rfl, 0, Nat.zero_le _, by simp [init, numbered], ?_, ?_, ?_, ?_⟩
    · intro h; cases h
    · intro _; exact ⟨by simp [init], rfl, rfl⟩
    · intro h; cases h
    · intro _ h; exact absurd rfl h
  constructor
  · intro acts hacts
    obtain ⟨_, m, hm, hstarted, hex, _, _, _⟩ :=
      NaturalInv_exec cfg files hargc hpl acts init hacts hinit
    refine ⟨m, hm, hstarted, ?_⟩
    intro hc
    rw [hstarted, hex hc, List.take_length]
  · intro acts hacts
    obtain ⟨more, hmore, hfin1, hfin2⟩ := session_can_end cfg files hargc hpl _
      (NaturalInv_exec cfg files hargc hpl acts init hacts hinit)
    exact ⟨more, hmore, by rw [exec_append]; exact hfin1, by rw [exec_append]; exact hfin2⟩

/-- C5 at Scenario A: a.mp3, b.mp3, c.mp3 are played in this order and the
session ends. -/
theorem natural_completion_plays_in_order_witness :
    ((∀ acts, (∀ a ∈ acts, a ≠ Action.controller true) →
      ∃ m, m ≤ ["a.mp3", "b.mp3", "c.mp3"].length ∧
        (exec session_abc acts init).started
          = numbered 1 (["a.mp3", "b.mp3", "c.mp3"].take m) ∧
        ((exec session_abc acts init).ctl = CtlPc.exited →
          (exec session_abc acts init).started
            = numbered 1 ["a.mp3", "b.mp3", "c.mp3"])) ∧
    (∀ acts, (∀ a ∈ acts, a ≠ Action.controller true) →
      ∃ more, (∀ a ∈ more, a ≠ Action.controller true) ∧
        (exec session_abc (acts ++ more) init).ctl = CtlPc.exited ∧
        (exec session_abc (acts ++ more) init).started
          = numbered 1 ["a.mp3", "b.mp3", "c.mp3"])) ∧
    (exec session_abc scenario_a_schedule init).ctl = CtlPc.exited ∧
    (exec session_abc scenario_a_schedule init).started
      = [(1, "a.mp3"), (2, "b.mp3"), (3, "c.mp3")] ∧
    (exec session_abc scenario_a_schedule init).sink = [10, 20, 10, 20, 10, 20] :=
  ⟨natural_completion_plays_in_order session_abc ["a.mp3", "b.mp3", "c.mp3"]
      (main_config_populated ["a.mp3", "b.mp3", "c.mp3"] (fun _ => [10, 20])).1
      (main_config_populated ["a.mp3", "b.mp3", "c.mp3"] (fun _ => [10, 20])).2,
    by decide, by decide, by decide⟩

/-! ## Claims about the metadata -/

/-- C8 (counterexample): for `song.mp3` with an ID3v2 tag whose fields are all
empty and nothing left by an earlier track, the title resolves to `song.mp3`,
not to `song`, and the genre stays empty; with a tag that has no title frame,
after a track titled `Old` has played to its end, the title stays `Old`; and
without ID3 data the title is `"UNKNOWN"`. -/
theorem empty_title_resolves_to_base_name_with_extension :
    (resolve_metadata song_mp3 (Id3Source.id3 (some empty_tags)) song_info_zero).map
        (fun r => r.2.title) = some ['s', 'o', 'n', 'g', '.', 'm', 'p', '3'] ∧
    (resolve_metadata song_mp3 (Id3Source.id3 (some empty_tags)) song_info_zero).map
        (fun r => r.2.title) ≠ some ['s', 'o', 'n', 'g'] ∧
    (resolve_metadata song_mp3 (Id3Source.id3 (some empty_tags)) song_info_zero).map
        (fun r => r.2.genre) = some [] ∧
    (resolve_metadata song_mp3 (Id3Source.id3 (some no_title_tags)) after_old_track).map
        (fun r => r.2.title) = some ['O', 'l', 'd'] ∧
    (resolve_metadata song_mp3 Id3Source.no_id3 song_info_zero).map
        (fun r => r.2.title) = some UNKNOWN := by
  exact ⟨by decide, by decide, by decide, by decide, by decide⟩

/-- C8 (amended): whenever `main` resolves a track and the C code has a defined
result: without ID3 data all four of title, artist, album, genre are
`"UNKNOWN"`; with an ID3v2 tag, a title that is the empty string, or that is
absent while `cur_song.title` is empty, resolves to the base name computed in
`main` (`basename` of the path, extension kept), and an artist or album that
is the empty string, or absent while the field is empty, resolves to
`"UNKNOWN"`. -/
theorem metadata_fallbacks (string : List Char) (src : Id3Source) (cur out : song_info)
    (r : Int) (h : resolve_metadata string src cur = some (r, out)) :
    (src = Id3Source.no_id3 →
      out.title = UNKNOWN ∧ out.artist = UNKNOWN ∧ out.album = UNKNOWN ∧ out.genre = UNKNOWN) ∧
    (∀ v2, src = Id3Source.id3 (some v2) →
      ((v2.title = some [NUL] ∨ ((v2.title = none ∨ v2.title = some []) ∧ cur.title = [])) →
        out.title = basename string) ∧
      ((v2.artist = some [NUL] ∨ ((v2.artist = none ∨ v2.artist = some []) ∧ cur.artist = [])) →
        out.artist = UNKNOWN) ∧
      ((v2.album = some [NUL] ∨ ((v2.album = none ∨ v2.album = some []) ∧ cur.album = [])) →
        out.album = UNKNOWN)) := by
  unfold resolve_metadata at h
  obtain ⟨c0, hc0, h⟩ := Option.bind_eq_some.mp h
  obtain ⟨hb0, ht0, ha0, hal0, hg0⟩ := load_filenames_spec _ _ _ hc0
  constructor
  · intro hsrc
    subst hsrc
    simp only [id3_tagger, id3_fields, Option.some_bind, Option.map_eq_some'] at h
    obtain ⟨c, hc, hrc⟩ := h
    simp only [Prod.mk.injEq] at hrc
    obtain ⟨_, rfl⟩ := hrc
    obtain ⟨_, h2, _, h4, _, h6, h7⟩ := id3_fallbacks_spec _ _ hc
    exact ⟨h2 (by simp [UNKNOWN]), h4 (by simp [UNKNOWN]), h6 (by simp [UNKNOWN]), h7⟩
  · intro v2 hsrc
    subst hsrc
    simp only [id3_tagger, id3_fields, Option.map_eq_some', Option.bind_eq_some] at h
    obtain ⟨c, ⟨c5, ⟨c4, ⟨c3, ⟨c2, hm1, hm2⟩, hm3⟩, hm4⟩, hf⟩, hrc⟩ := h
    simp only [Prod.mk.injEq] at hrc
    obtain ⟨_, rfl⟩ := hrc
    obtain ⟨b1, -, a1, l1, -⟩ := make_id_frame _ _ _ _ hm1
    obtain ⟨b2, t2, -, l2, -⟩ := make_id_frame _ _ _ _ hm2
    obtain ⟨b3, t3, a3, -, -⟩ := make_id_frame _ _ _ _ hm3
    obtain ⟨b4, t4, a4, l4, -⟩ := make_id_frame _ _ _ _ hm4
    have t2 := t2 (by decide)
    have t3 := t3 (by decide)
    have t4 := t4 (by decide)
    have a1 := a1 (by decide)
    have a3 := a3 (by decide)
    have a4 := a4 (by decide)
    have l1 := l1 (by decide)
    have l2 := l2 (by decide)
    have l4 := l4 (by decide)
    obtain ⟨f1, -, f3, -, f5, -, -⟩ := id3_fallbacks_spec _ _ hf
    refine ⟨?_, ?_, ?_⟩
    · intro hx
      have hc2 : c2.title = [] := by
        rcases hx with hx | ⟨hx, hcur⟩
        · rw [hx, make_id_empty_title] at hm1
          simp only [Option.some.injEq] at hm1
          rw [← hm1]
        · rw [make_id_absent _ _ _ hx] at hm1
          simp only [Option.some.injEq] at hm1
          rw [← hm1, ht0, hcur]
      rw [f1 (by rw [t4, t3, t2, hc2]), b4, b3, b2, b1, hb0]
    · intro hx
      have hc3 : c3.artist = [] := by
        rcases hx with hx | ⟨hx, hcur⟩
        · rw [hx, make_id_empty_artist] at hm2
          simp only [Option.some.injEq] at hm2
          rw [← hm2]
        · rw [make_id_absent _ _ _ hx] at hm2
          simp only [Option.some.injEq] at hm2
          rw [← hm2, a1, ha0, hcur]
      exact f3 (by rw [a4, a3, hc3])
    · intro hx
      have hc4 : c4.album = [] := by
        rcases hx with hx | ⟨hx, hcur⟩
        · rw [hx, make_id_empty_album] at hm3
          simp only [Option.some.injEq] at hm3
          rw [← hm3]
        · rw [make_id_absent _ _ _ hx] at hm3
          simp only [Option.some.injEq] at hm3
          rw [← hm3, l2, l1, hal0, hcur]
      exact f5 (by rw [l4, hc4])

/-- C8 (amended) at `song.mp3` with an all-empty tag, after a track titled
`Old`: the title is `song.mp3`, artist and album are `"UNKNOWN"`. -/
theorem metadata_fallbacks_witness :
    resolve_metadata song_mp3 (Id3Source.id3 (some empty_tags)) after_old_track
      = some (0, resolved_song_mp3) ∧
    resolved_song_mp3.title = basename song_mp3 ∧
    resolved_song_mp3.artist = UNKNOWN ∧
    resolved_song_mp3.album = UNKNOWN :=
  ⟨by decide,
   ((metadata_fallbacks song_mp3 (Id3Source.id3 (some empty_tags)) after_old_track
      resolved_song_mp3 0 (by decide)).2 empty_tags rfl).1 (Or.inl rfl),
   ((metadata_fallbacks song_mp3 (Id3Source.id3 (some empty_tags)) after_old_track
      resolved_song_mp3 0 (by decide)).2 empty_tags rfl).2.1 (Or.inl rfl),
   ((metadata_fallbacks song_mp3 (Id3Source.id3 (some empty_tags)) after_old_track
      resolved_song_mp3 0 (by decide)).2 empty_tags rfl).2.2 (Or.inl rfl)⟩

/-! ## Claims about the playlist -/

/-- C1: after any sequence of `playlist_add_song` calls on a playlist made by
`playlist_init`, `playlist_get_song i` yields the track of the most recent
call with index `i` (the call after which no later call names `i`), and
yields `NULL` when no call names `i`; the order of the calls is arbitrary. -/
theorem playlist_lookup_most_recent {α : Type} (calls : List (Int × Option α)) (i : Int) :
    (∀ pre post t, calls = pre ++ (i, t) :: post → (∀ c ∈ post, c.1 ≠ i) →
        playlist_get_song i (add_all calls playlist_init) = t) ∧
    ((∀ c ∈ calls, c.1 ≠ i) →
        playlist_get_song i (add_all calls playlist_init) = none) := by
  refine ⟨?_, ?_⟩
  · intro pre post t hc hpost
    subst hc
    have h1 : add_all (pre ++ (i, t) :: post) (playlist_init : playlist_t α)
        = add_all post (playlist_add_song i t (add_all pre playlist_init)) := by
      simp [add_all, List.foldl_append]
    rw [h1, get_add_all_never i post _ hpost, get_add_same]
  · intro h
    rw [get_add_all_never i calls _ h]
    rfl

/-- C1 at a concrete call sequence: index 2 inserted twice, out of order with 1 and 3. -/
theorem playlist_lookup_most_recent_witness :
    playlist_get_song 2 (add_all [(3, some "c"), (2, some "x"), (1, some "a"), (2, some "b")]
      playlist_init) = some "b" ∧
    playlist_get_song 5 (add_all [(3, some "c"), (1, some "a")] playlist_init) = none :=
  ⟨(playlist_lookup_most_recent [(3, some "c"), (2, some "x"), (1, some "a"), (2, some "b")] 2).1
      [(3, some "c"), (2, some "x"), (1, some "a")] [] (some "b") rfl (by simp),
   (playlist_lookup_most_recent [(3, some "c"), (1, some "a")] 5).2 (by decide)⟩

end LcdMp3
